import Mathlib

/-
Shallow embedding of src/generate_imbedding.py.

The script reads configuration from the environment, connects to a fixed
MongoDB database and collection, loops over a static list of FAQ records
(for each: calls the embedding API on the question, extracts
response.data[0].embedding, inserts the combined document), and finally
attempts to create a 2dsphere index inside a try/except block.

External effects (the embedding API, document inserts, index creation) are
modelled by an oracle structure Env; the script body is a pure function of
the oracle and the input list, returning the ordered trace of external
calls together with the exit status of the process.
-/

/-- One input record of the hardcoded faqs list: a question/answer pair. -/
structure FAQ where
  question : String
  answer : String
deriving DecidableEq, Repr

/-- One item of the embedding API response data list. The embedding field is
optional because the script accesses it with an unguarded dict lookup. -/
structure EmbItem (V : Type) where
  embedding : Option V
deriving DecidableEq, Repr

/-- The embedding API response: a data list of result items, as accessed by
the script via response, data, index 0, embedding. -/
structure EmbResponse (V : Type) where
  data : List (EmbItem V)
deriving DecidableEq, Repr

/-- The document built in the loop body: exactly the three fields question,
answer, embedding, with no others. -/
structure Doc (V : Type) where
  question : String
  answer : String
  embedding : V
deriving DecidableEq, Repr

/-- Errors of the unguarded extraction response.data[0].embedding:
an IndexError when data is empty, a KeyError when the first item has no
embedding field. -/
inductive ExtractErr where
  | indexError
  | keyError
deriving DecidableEq, Repr

/-- A Python exception that can abort the ingestion loop: an error raised by
the embedding API call, by the extraction, or by the store insert. -/
inductive PyErr (E : Type) where
  | embedErr (e : E)
  | extractErr (x : ExtractErr)
  | insertErr (e : E)
deriving DecidableEq, Repr

/-- Oracle for the external world: the outcome of the embedding API call for
a given question, the outcome of a store insert for a given document
(returning the generated id on success), and the outcome of the
create_index call. -/
structure Env (V E : Type) where
  embed : String → Except E (EmbResponse V)
  insertOne : Doc V → Except E String
  createIndexResult : Except E Unit

/-- Database name constant: client ['knowledge_base'] in the source. -/
def databaseName : String := "knowledge_base"

/-- Collection name constant: db ['faqs'] in the source. -/
def collectionName : String := "faqs"

/-- Engine identifier passed to the embedding call. -/
def engineName : String := "text-embedding-3-small"

/-- Field on which create_index is called. -/
def indexFieldName : String := "embedding"

/-- Index type passed to create_index. -/
def indexTypeName : String := "2dsphere"

instance exceptDecEq {ε α : Type} [DecidableEq ε] [DecidableEq α] :
    DecidableEq (Except ε α)
  | .ok a, .ok b =>
    if h : a = b then .isTrue (by rw [h]) else
      .isFalse (by intro hc; cases hc; exact h rfl)
  | .error a, .error b =>
    if h : a = b then .isTrue (by rw [h]) else
      .isFalse (by intro hc; cases hc; exact h rfl)
  | .ok _, .error _ => .isFalse (by intro hc; cases hc)
  | .error _, .ok _ => .isFalse (by intro hc; cases hc)

/-- One external call made by the script, recorded in order. -/
inductive Event (V E : Type) where
  | embedCall (question engine : String) (result : Except E (EmbResponse V))
  | insertCall (dbName collName : String) (doc : Doc V) (result : Except E String)
  | indexCall (dbName collName : String) (field idxType : String) (result : Except E Unit)
deriving DecidableEq, Repr

/-- The unguarded extraction response.data[0].embedding from line 47 of the
source: fails with IndexError on an empty data list, with KeyError when the
first item lacks the embedding field, and otherwise returns the vector
unchanged. -/
def extractEmbedding {V : Type} (resp : EmbResponse V) : Except ExtractErr V :=
  match resp.data with
  | [] => .error .indexError
  | item :: _ =>
    match item.embedding with
    | none => .error .keyError
    | some v => .ok v

/-- One iteration of the ingestion loop (lines 41 to 58): call the embedding
API with the question, extract the vector, build the document, insert it.
Returns the trace of external calls of this iteration and the exception
that aborted it, if any. -/
def processFAQ {V E : Type} (env : Env V E) (faq : FAQ) :
    List (Event V E) × Option (PyErr E) :=
  match env.embed faq.question with
  | .error e => ([.embedCall faq.question engineName (.error e)], some (.embedErr e))
  | .ok resp =>
    match extractEmbedding resp with
    | .error x => ([.embedCall faq.question engineName (.ok resp)], some (.extractErr x))
    | .ok v =>
      match env.insertOne ⟨faq.question, faq.answer, v⟩ with
      | .error e =>
          ([.embedCall faq.question engineName (.ok resp),
            .insertCall databaseName collectionName ⟨faq.question, faq.answer, v⟩ (.error e)],
           some (.insertErr e))
      | .ok rid =>
          ([.embedCall faq.question engineName (.ok resp),
            .insertCall databaseName collectionName ⟨faq.question, faq.answer, v⟩ (.ok rid)],
           none)

/-- The ingestion loop: iterations run in list order; no exception is caught
inside the loop, so the first failing iteration aborts the rest. -/
def runLoop {V E : Type} (env : Env V E) (faqs : List FAQ) :
    List (Event V E) × Option (PyErr E) :=
  match faqs with
  | [] => ([], none)
  | f :: rest =>
    match processFAQ env f with
    | (tr, some e) => (tr, some e)
    | (tr, none) => (tr ++ (runLoop env rest).1, (runLoop env rest).2)

/-- Exit status of the process. -/
inductive ExitStatus where
  | success
  | failure
deriving DecidableEq, Repr

/-- The whole script after configuration: run the ingestion loop; an
uncaught loop exception terminates the process with an error status before
the index step; otherwise create_index runs inside try/except, its failure
is caught and printed, and the process exits successfully either way. -/
def runScript {V E : Type} (env : Env V E) (faqs : List FAQ) :
    List (Event V E) × ExitStatus :=
  match runLoop env faqs with
  | (tr, some _) => (tr, .failure)
  | (tr, none) =>
      (tr ++ [.indexCall databaseName collectionName indexFieldName indexTypeName
                env.createIndexResult],
       .success)

/-- The three environment reads of lines 12, 19 and 20, exactly as returned
by os.getenv: each field is None when the variable is absent. -/
structure Config where
  mongodb_uri : Option String
  azure_api_key : Option String
  azure_endpoint_url : Option String
deriving DecidableEq, Repr

/-- The configuration load step: three os.getenv reads, no validation of
presence or format, no possibility of raising. -/
def loadConfig (getenv : String → Option String) : Config :=
  ⟨getenv "MONGODB_URI", getenv "AZURE_API_KEY", getenv "AZURE_ENDPOINT_URL"⟩

/-- Modelled from the spec: pymongo MongoClient handle creation has lazy
connection semantics (spec 4.2), so building the client handle from the
configured uri always succeeds, even when the uri is absent. The library
code itself is not part of this repository. -/
structure ClientHandle where
  uri : Option String
deriving DecidableEq, Repr

/-- Modelled from the spec: MongoClient(mongodb_uri) never raises at handle
creation time. -/
def mongoClient (uri : Option String) : ClientHandle := ⟨uri⟩

/-- A connection-kind error, surfaced at first downstream use (spec 4.1). -/
inductive ConnErr where
  | connectionError
deriving DecidableEq, Repr

/-- Modelled from the spec: the first store operation that touches the
network fails with a connection-kind error when the connection string is
absent, rather than at load time. -/
def firstStoreOp (c : ClientHandle) : Except ConnErr Unit :=
  match c.uri with
  | none => .error .connectionError
  | some _ => .ok ()

/-- Is the event a store insert call. -/
def isInsertEvent {V E : Type} : Event V E → Bool
  | .insertCall _ _ _ _ => true
  | _ => false

/-- Is the event an embedding API call. -/
def isEmbedEvent {V E : Type} : Event V E → Bool
  | .embedCall _ _ _ => true
  | _ => false

/-- Is the event an index creation call. -/
def isIndexEvent {V E : Type} : Event V E → Bool
  | .indexCall _ _ _ _ _ => true
  | _ => false

/-- Number of store insert calls in a trace. -/
def countInserts {V E : Type} (tr : List (Event V E)) : Nat :=
  tr.countP isInsertEvent

/-- Number of embedding API calls in a trace. -/
def countEmbeds {V E : Type} (tr : List (Event V E)) : Nat :=
  tr.countP isEmbedEvent

/-- Number of index creation calls in a trace. -/
def countIndexCalls {V E : Type} (tr : List (Event V E)) : Nat :=
  tr.countP isIndexEvent

/-- The documents passed to store inserts, in call order. -/
def insertedDocs {V E : Type} (tr : List (Event V E)) : List (Doc V) :=
  tr.filterMap fun ev =>
    match ev with
    | .insertCall _ _ d _ => some d
    | _ => none

/-- The record at stated question/answer succeeds end to end in the loop. -/
def faqOk {V E : Type} (env : Env V E) (faq : FAQ) : Prop :=
  (processFAQ env faq).2 = none

instance faqOkDecidable {V E : Type} [DecidableEq V] [DecidableEq E]
    (env : Env V E) (faq : FAQ) : Decidable (faqOk env faq) :=
  inferInstanceAs (Decidable ((processFAQ env faq).2 = none))

/-- A concrete embedding API response used to exercise the definitions. -/
def sampleResp : EmbResponse (List Nat) := ⟨[⟨some [1, 2]⟩]⟩

/-- A concrete oracle on which every external call succeeds. -/
def sampleEnv : Env (List Nat) Unit :=
  ⟨fun _ => .ok sampleResp, fun _ => .ok "id0", .ok ()⟩

/-- A concrete input list of two records. -/
def sampleFaqs : List FAQ := [⟨"A", "1"⟩, ⟨"B", "2"⟩]

/-- A concrete oracle whose embedding call fails on question B only. -/
def failEnv : Env (List Nat) Unit :=
  ⟨fun q => if q = "B" then .error () else .ok sampleResp,
   fun _ => .ok "id0", .ok ()⟩

/-- A concrete oracle whose embedding responses have an empty data list. -/
def emptyDataEnv : Env (List Nat) Unit :=
  ⟨fun _ => .ok ⟨[]⟩, fun _ => .ok "id0", .ok ()⟩

/- Structural lemmas about one loop iteration. -/

theorem processFAQ_shape {V E : Type} (env : Env V E) (f : FAQ) :
    (∃ e, env.embed f.question = .error e ∧
      processFAQ env f =
        ([.embedCall f.question engineName (.error e)], some (.embedErr e))) ∨
    (∃ resp x, env.embed f.question = .ok resp ∧
      extractEmbedding resp = .error x ∧
      processFAQ env f =
        ([.embedCall f.question engineName (.ok resp)], some (.extractErr x))) ∨
    (∃ resp v e, env.embed f.question = .ok resp ∧
      extractEmbedding resp = .ok v ∧
      env.insertOne ⟨f.question, f.answer, v⟩ = .error e ∧
      processFAQ env f =
        ([.embedCall f.question engineName (.ok resp),
          .insertCall databaseName collectionName ⟨f.question, f.answer, v⟩ (.error e)],
         some (.insertErr e))) ∨
    (∃ resp v rid, env.embed f.question = .ok resp ∧
      extractEmbedding resp = .ok v ∧
      env.insertOne ⟨f.question, f.answer, v⟩ = .ok rid ∧
      processFAQ env f =
        ([.embedCall f.question engineName (.ok resp),
          .insertCall databaseName collectionName ⟨f.question, f.answer, v⟩ (.ok rid)],
         none)) := by
  cases hemb : env.embed f.question with
  | error e =>
    exact Or.inl ⟨e, rfl, by simp [processFAQ, hemb]⟩
  | ok resp =>
    cases hext : extractEmbedding resp with
    | error x =>
      exact Or.inr (Or.inl ⟨resp, x, rfl, hext, by simp [processFAQ, hemb, hext]⟩)
    | ok v =>
      cases hins : env.insertOne ⟨f.question, f.answer, v⟩ with
      | error e =>
        refine Or.inr (Or.inr (Or.inl ⟨resp, v, e, rfl, hext, hins, ?_⟩))
        simp [processFAQ, hemb, hext, hins]
      | ok rid =>
        refine Or.inr (Or.inr (Or.inr ⟨resp, v, rid, rfl, hext, hins, ?_⟩))
        simp [processFAQ, hemb, hext, hins]

theorem faqOk_shape {V E : Type} (env : Env V E) (f : FAQ) (h : faqOk env f) :
    ∃ resp v rid, env.embed f.question = .ok resp ∧
      extractEmbedding resp = .ok v ∧
      env.insertOne ⟨f.question, f.answer, v⟩ = .ok rid ∧
      processFAQ env f =
        ([.embedCall f.question engineName (.ok resp),
          .insertCall databaseName collectionName ⟨f.question, f.answer, v⟩ (.ok rid)],
         none) := by
  rcases processFAQ_shape env f with ⟨e, _, hp⟩ | ⟨resp, x, _, _, hp⟩ |
    ⟨resp, v, e, _, _, _, hp⟩ | ⟨resp, v, rid, h1, h2, h3, hp⟩
  · exact absurd h (by rw [faqOk, hp]; simp)
  · exact absurd h (by rw [faqOk, hp]; simp)
  · exact absurd h (by rw [faqOk, hp]; simp)
  · exact ⟨resp, v, rid, h1, h2, h3, hp⟩

theorem processFAQ_countEmbeds {V E : Type} (env : Env V E) (f : FAQ) :
    countEmbeds (processFAQ env f).1 = 1 := by
  rcases processFAQ_shape env f with ⟨e, _, hp⟩ | ⟨resp, x, _, _, hp⟩ |
    ⟨resp, v, e, _, _, _, hp⟩ | ⟨resp, v, rid, _, _, _, hp⟩ <;>
    rw [hp] <;> simp [countEmbeds, List.countP_cons, isEmbedEvent]

theorem processFAQ_countInserts_le {V E : Type} (env : Env V E) (f : FAQ) :
    countInserts (processFAQ env f).1 ≤ 1 := by
  rcases processFAQ_shape env f with ⟨e, _, hp⟩ | ⟨resp, x, _, _, hp⟩ |
    ⟨resp, v, e, _, _, _, hp⟩ | ⟨resp, v, rid, _, _, _, hp⟩ <;>
    rw [hp] <;> simp [countInserts, List.countP_cons, isInsertEvent]

theorem processFAQ_countInserts_ok {V E : Type} (env : Env V E) (f : FAQ)
    (h : faqOk env f) : countInserts (processFAQ env f).1 = 1 := by
  rcases faqOk_shape env f h with ⟨resp, v, rid, _, _, _, hp⟩
  rw [hp]
  simp [countInserts, List.countP_cons, isInsertEvent]

theorem processFAQ_no_index {V E : Type} (env : Env V E) (f : FAQ)
    {ev : Event V E} (h : ev ∈ (processFAQ env f).1) : isIndexEvent ev = false := by
  rcases processFAQ_shape env f with ⟨e, _, hp⟩ | ⟨resp, x, _, _, hp⟩ |
    ⟨resp, v, e, _, _, _, hp⟩ | ⟨resp, v, rid, _, _, _, hp⟩
  · rw [hp] at h; simp at h; subst h; rfl
  · rw [hp] at h; simp at h; subst h; rfl
  · rw [hp] at h
    simp at h
    rcases h with h | h <;> (subst h; rfl)
  · rw [hp] at h
    simp at h
    rcases h with h | h <;> (subst h; rfl)

theorem insert_mem_processFAQ {V E : Type} (env : Env V E) (f : FAQ)
    {db co : String} {d : Doc V} {res : Except E String}
    (h : Event.insertCall db co d res ∈ (processFAQ env f).1) :
    db = databaseName ∧ co = collectionName ∧
    ∃ resp, env.embed f.question = .ok resp ∧
      extractEmbedding resp = .ok d.embedding ∧
      d = ⟨f.question, f.answer, d.embedding⟩ := by
  rcases processFAQ_shape env f with ⟨e, _, hp⟩ | ⟨resp, x, _, _, hp⟩ |
    ⟨resp, v, e, hemb, hext, _, hp⟩ | ⟨resp, v, rid, hemb, hext, _, hp⟩ <;> rw [hp] at h
  · simp at h
  · simp at h
  · simp at h
    rcases h with ⟨hdb, hco, hd, _⟩
    subst hd
    exact ⟨hdb, hco, resp, hemb, hext, rfl⟩
  · simp at h
    rcases h with ⟨hdb, hco, hd, _⟩
    subst hd
    exact ⟨hdb, hco, resp, hemb, hext, rfl⟩

/- Structural lemmas about the loop. -/

theorem runLoop_nil {V E : Type} (env : Env V E) : runLoop env [] = ([], none) := rfl

theorem runLoop_cons_ok {V E : Type} (env : Env V E) (f : FAQ) (rest : List FAQ)
    (h : (processFAQ env f).2 = none) :
    runLoop env (f :: rest) =
      ((processFAQ env f).1 ++ (runLoop env rest).1, (runLoop env rest).2) := by
  rcases hp : processFAQ env f with ⟨tr, err⟩
  rw [hp] at h
  simp at h
  subst h
  simp [runLoop, hp]

theorem runLoop_cons_err {V E : Type} (env : Env V E) (f : FAQ) (rest : List FAQ)
    {e : PyErr E} (h : (processFAQ env f).2 = some e) :
    runLoop env (f :: rest) = ((processFAQ env f).1, some e) := by
  rcases hp : processFAQ env f with ⟨tr, err⟩
  rw [hp] at h
  simp at h
  subst h
  simp [runLoop, hp]

theorem runLoop_all_ok {V E : Type} (env : Env V E) (faqs : List FAQ)
    (h : ∀ f ∈ faqs, faqOk env f) :
    runLoop env faqs = (faqs.flatMap fun f => (processFAQ env f).1, none) := by
  induction faqs with
  | nil => rfl
  | cons f rest ih =>
    rw [runLoop_cons_ok env f rest (h f (by simp)),
      ih (fun g hg => h g (by simp [hg]))]
    simp

theorem runLoop_split {V E : Type} (env : Env V E) (pre post : List FAQ) (f : FAQ)
    {e : PyErr E} (hpre : ∀ g ∈ pre, faqOk env g)
    (hf : (processFAQ env f).2 = some e) :
    runLoop env (pre ++ f :: post) =
      ((pre.flatMap fun g => (processFAQ env g).1) ++ (processFAQ env f).1, some e) := by
  induction pre with
  | nil => simp [runLoop_cons_err env f post hf]
  | cons g rest ih =>
    rw [List.cons_append, runLoop_cons_ok env g _ (hpre g (by simp)),
      ih (fun g1 hg1 => hpre g1 (by simp [hg1]))]
    simp

theorem runLoop_snd_none_iff {V E : Type} (env : Env V E) (faqs : List FAQ) :
    (runLoop env faqs).2 = none ↔ ∀ f ∈ faqs, faqOk env f := by
  induction faqs with
  | nil => simp [runLoop_nil]
  | cons f rest ih =>
    constructor
    · intro h
      cases hp : (processFAQ env f).2 with
      | some e => rw [runLoop_cons_err env f rest hp] at h; simp at h
      | none =>
        rw [runLoop_cons_ok env f rest hp] at h
        simp at h
        intro g hg
        rcases List.mem_cons.mp hg with hg | hg
        · subst hg; exact hp
        · exact (ih.mp h) g hg
    · intro h
      rw [runLoop_cons_ok env f rest (h f (by simp))]
      exact ih.mpr fun g hg => h g (by simp [hg])

theorem mem_runLoop_fst {V E : Type} (env : Env V E) (faqs : List FAQ)
    {ev : Event V E} (h : ev ∈ (runLoop env faqs).1) :
    ∃ f ∈ faqs, ev ∈ (processFAQ env f).1 := by
  induction faqs with
  | nil => rw [runLoop_nil] at h; simp at h
  | cons f rest ih =>
    cases hp : (processFAQ env f).2 with
    | some e =>
      rw [runLoop_cons_err env f rest hp] at h
      exact ⟨f, by simp, h⟩
    | none =>
      rw [runLoop_cons_ok env f rest hp] at h
      rcases List.mem_append.mp h with h | h
      · exact ⟨f, by simp, h⟩
      · rcases ih h with ⟨g, hg, hev⟩
        exact ⟨g, by simp [hg], hev⟩

/- Structural lemmas about the whole script. -/

theorem runScript_ok {V E : Type} (env : Env V E) (faqs : List FAQ)
    (h : (runLoop env faqs).2 = none) :
    runScript env faqs =
      ((runLoop env faqs).1 ++
        [.indexCall databaseName collectionName indexFieldName indexTypeName
          env.createIndexResult],
       .success) := by
  rcases hr : runLoop env faqs with ⟨tr, err⟩
  rw [hr] at h
  simp at h
  subst h
  simp [runScript, hr]

theorem runScript_err {V E : Type} (env : Env V E) (faqs : List FAQ)
    {e : PyErr E} (h : (runLoop env faqs).2 = some e) :
    runScript env faqs = ((runLoop env faqs).1, .failure) := by
  rcases hr : runLoop env faqs with ⟨tr, err⟩
  rw [hr] at h
  simp at h
  subst h
  simp [runScript, hr]

theorem mem_runScript_fst {V E : Type} (env : Env V E) (faqs : List FAQ)
    {ev : Event V E} (h : ev ∈ (runScript env faqs).1) :
    ev ∈ (runLoop env faqs).1 ∨
      ev = .indexCall databaseName collectionName indexFieldName indexTypeName
        env.createIndexResult := by
  cases hr : (runLoop env faqs).2 with
  | some e =>
    rw [runScript_err env faqs hr] at h
    exact Or.inl h
  | none =>
    rw [runScript_ok env faqs hr] at h
    rcases List.mem_append.mp h with h | h
    · exact Or.inl h
    · simp at h; exact Or.inr h

theorem countInserts_append {V E : Type} (t1 t2 : List (Event V E)) :
    countInserts (t1 ++ t2) = countInserts t1 + countInserts t2 := by
  simp [countInserts, List.countP_append]

theorem countInserts_bind_ok {V E : Type} (env : Env V E) (faqs : List FAQ)
    (h : ∀ f ∈ faqs, faqOk env f) :
    countInserts (faqs.flatMap fun f => (processFAQ env f).1) = faqs.length := by
  induction faqs with
  | nil => rfl
  | cons f rest ih =>
    rw [List.flatMap_cons, countInserts_append,
      processFAQ_countInserts_ok env f (h f (by simp)),
      ih fun g hg => h g (by simp [hg])]
    simp [Nat.add_comm]

theorem countEmbeds_append {V E : Type} (t1 t2 : List (Event V E)) :
    countEmbeds (t1 ++ t2) = countEmbeds t1 + countEmbeds t2 := by
  simp [countEmbeds, List.countP_append]

theorem countEmbeds_bind {V E : Type} (env : Env V E) (faqs : List FAQ) :
    countEmbeds (faqs.flatMap fun f => (processFAQ env f).1) = faqs.length := by
  induction faqs with
  | nil => rfl
  | cons f rest ih =>
    rw [List.flatMap_cons, countEmbeds_append, processFAQ_countEmbeds env f, ih]
    simp [Nat.add_comm]

theorem runLoop_countEmbeds_le {V E : Type} (env : Env V E) (faqs : List FAQ) :
    countEmbeds (runLoop env faqs).1 ≤ faqs.length := by
  induction faqs with
  | nil => simp [runLoop_nil, countEmbeds]
  | cons f rest ih =>
    cases hp : (processFAQ env f).2 with
    | some e =>
      rw [runLoop_cons_err env f rest hp, processFAQ_countEmbeds env f]
      simp
    | none =>
      rw [runLoop_cons_ok env f rest hp, countEmbeds_append,
        processFAQ_countEmbeds env f]
      simp
      omega

theorem runLoop_countInserts_le {V E : Type} (env : Env V E) (faqs : List FAQ) :
    countInserts (runLoop env faqs).1 ≤ faqs.length := by
  induction faqs with
  | nil => simp [runLoop_nil, countInserts]
  | cons f rest ih =>
    cases hp : (processFAQ env f).2 with
    | some e =>
      rw [runLoop_cons_err env f rest hp]
      have := processFAQ_countInserts_le env f
      simp
      omega
    | none =>
      rw [runLoop_cons_ok env f rest hp, countInserts_append]
      have := processFAQ_countInserts_le env f
      simp
      omega

theorem runLoop_countIndexCalls {V E : Type} (env : Env V E) (faqs : List FAQ) :
    countIndexCalls (runLoop env faqs).1 = 0 := by
  rw [countIndexCalls, List.countP_eq_zero]
  intro ev hev
  rcases mem_runLoop_fst env faqs hev with ⟨f, _, hevp⟩
  simp [processFAQ_no_index env f hevp]

theorem insertedDocs_append {V E : Type} (t1 t2 : List (Event V E)) :
    insertedDocs (t1 ++ t2) = insertedDocs t1 ++ insertedDocs t2 := by
  simp [insertedDocs, List.filterMap_append]

theorem processFAQ_index_indep {V E : Type} (env : Env V E) (r : Except E Unit)
    (f : FAQ) :
    processFAQ ⟨env.embed, env.insertOne, r⟩ f = processFAQ env f := rfl

theorem runLoop_index_indep {V E : Type} (env : Env V E) (r : Except E Unit)
    (faqs : List FAQ) :
    runLoop ⟨env.embed, env.insertOne, r⟩ faqs = runLoop env faqs := by
  induction faqs with
  | nil => rfl
  | cons f rest ih =>
    simp only [runLoop, processFAQ_index_indep, ih]

/- Claim theorems. -/

/-- C1: every document passed to a store insert call by the script is
exactly the record question, the record answer, and the vector extracted
unchanged from the successful embedding API response for that question,
with no other fields (Doc has exactly these three fields). -/
theorem c1_inserted_doc_exact {V E : Type} (env : Env V E) (faqs : List FAQ)
    {db co : String} {d : Doc V} {res : Except E String}
    (hmem : Event.insertCall db co d res ∈ (runScript env faqs).1) :
    ∃ r ∈ faqs, ∃ resp : EmbResponse V,
      env.embed r.question = .ok resp ∧
      extractEmbedding resp = .ok d.embedding ∧
      d = ⟨r.question, r.answer, d.embedding⟩ := by
  rcases mem_runScript_fst env faqs hmem with h | h
  · rcases mem_runLoop_fst env faqs h with ⟨f, hf, hev⟩
    rcases insert_mem_processFAQ env f hev with ⟨_, _, resp, h1, h2, h3⟩
    exact ⟨f, hf, resp, h1, h2, h3⟩
  · simp at h

/-- Witness for C1 at a concrete oracle and a concrete input list. -/
theorem c1_inserted_doc_exact_witness :
    (Event.insertCall "knowledge_base" "faqs" (Doc.mk "A" "1" [1, 2])
        (Except.ok "id0") ∈ (runScript sampleEnv sampleFaqs).1) ∧
    ∃ r ∈ sampleFaqs, ∃ resp : EmbResponse (List Nat),
      sampleEnv.embed r.question = .ok resp ∧
      extractEmbedding resp = .ok (Doc.mk "A" "1" ([1, 2] : List Nat)).embedding ∧
      Doc.mk "A" "1" ([1, 2] : List Nat) =
        ⟨r.question, r.answer, (Doc.mk "A" "1" ([1, 2] : List Nat)).embedding⟩ :=
  ⟨by decide,
   @c1_inserted_doc_exact (List Nat) Unit sampleEnv sampleFaqs "knowledge_base" "faqs"
     (Doc.mk "A" "1" [1, 2]) (Except.ok "id0") (by decide)⟩

/-- C2: when the loop finishes with no failure on an input of N records,
exactly N store insert calls occur, and, provided every vector the
embedding API returns is non-empty (the API contract assumed by the spec
data model), every inserted document has a non-empty embedding field. -/
theorem c2_n_inserts_each_nonempty {A E : Type} (env : Env (List A) E)
    (faqs : List FAQ)
    (hok : (runLoop env faqs).2 = none)
    (hne : ∀ q resp v, env.embed q = .ok resp →
      extractEmbedding resp = .ok v → v ≠ []) :
    countInserts (runScript env faqs).1 = faqs.length ∧
    ∀ db co d res, Event.insertCall db co d res ∈ (runScript env faqs).1 →
      d.embedding ≠ [] := by
  have hall := (runLoop_snd_none_iff env faqs).mp hok
  constructor
  · rw [runScript_ok env faqs hok, countInserts_append]
    rw [runLoop_all_ok env faqs hall]
    rw [countInserts_bind_ok env faqs hall]
    simp [countInserts, isInsertEvent]
  · intro db co d res hmem
    rcases mem_runScript_fst env faqs hmem with h | h
    · rcases mem_runLoop_fst env faqs h with ⟨f, _, hev⟩
      rcases insert_mem_processFAQ env f hev with ⟨_, _, resp, h1, h2, _⟩
      exact hne f.question resp d.embedding h1 h2
    · simp at h

/-- Witness for C2 at a concrete oracle and a concrete two-record input. -/
theorem c2_n_inserts_each_nonempty_witness :
    ((runLoop sampleEnv sampleFaqs).2 = none) ∧
    (∀ q resp v, sampleEnv.embed q = .ok resp →
      extractEmbedding resp = .ok v → v ≠ []) ∧
    (countInserts (runScript sampleEnv sampleFaqs).1 = sampleFaqs.length ∧
      ∀ db co d res,
        Event.insertCall db co d res ∈ (runScript sampleEnv sampleFaqs).1 →
          d.embedding ≠ []) := by
  have hne : ∀ q resp v, sampleEnv.embed q = .ok resp →
      extractEmbedding resp = .ok v → v ≠ [] := by
    intro q resp v hq hx
    simp only [sampleEnv] at hq
    cases hq
    simp only [sampleResp, extractEmbedding] at hx
    cases hx
    decide
  exact ⟨by decide, hne,
    c2_n_inserts_each_nonempty sampleEnv sampleFaqs (by decide) hne⟩

/-- C3: if every record before position k succeeds end to end and the
embedding call fails on the k-th record (here k = pre.length + 1), the
script trace is exactly the successful per-record traces of the first
k - 1 records followed by the single failed embedding call, and the
process fails: the first k - 1 records are inserted, exactly k embedding
calls occur, and records k .. N trigger no embedding call and no insert. -/
theorem c3_fail_at_k {V E : Type} (env : Env V E) (pre post : List FAQ) (f : FAQ)
    {e : E} (hpre : ∀ g ∈ pre, faqOk env g)
    (hf : env.embed f.question = .error e) :
    runScript env (pre ++ f :: post) =
      ((pre.flatMap fun g => (processFAQ env g).1) ++
        [.embedCall f.question engineName (.error e)], .failure) ∧
    countInserts (runScript env (pre ++ f :: post)).1 = pre.length ∧
    countEmbeds (runScript env (pre ++ f :: post)).1 = pre.length + 1 := by
  have hfp : processFAQ env f =
      ([.embedCall f.question engineName (.error e)], some (.embedErr e)) := by
    simp [processFAQ, hf]
  have hsnd : (processFAQ env f).2 = some (.embedErr e) := by rw [hfp]
  have hloop := runLoop_split env pre post f hpre hsnd
  have hscript := runScript_err env (pre ++ f :: post) (by rw [hloop])
  rw [hloop, hfp] at hscript
  refine ⟨hscript, ?_, ?_⟩
  · rw [hscript, countInserts_append, countInserts_bind_ok env pre hpre]
    simp [countInserts, isInsertEvent]
  · rw [hscript, countEmbeds_append, countEmbeds_bind env pre]
    simp [countEmbeds, isEmbedEvent]

/-- Witness for C3: the second of three records fails its embedding call. -/
theorem c3_fail_at_k_witness :
    (∀ g ∈ [FAQ.mk "A" "1"], faqOk failEnv g) ∧
    (failEnv.embed (FAQ.mk "B" "2").question = .error ()) ∧
    (runScript failEnv ([FAQ.mk "A" "1"] ++ FAQ.mk "B" "2" :: [FAQ.mk "C" "3"]) =
      (([FAQ.mk "A" "1"].flatMap fun g => (processFAQ failEnv g).1) ++
        [.embedCall (FAQ.mk "B" "2").question engineName (.error ())], .failure) ∧
    countInserts
      (runScript failEnv ([FAQ.mk "A" "1"] ++ FAQ.mk "B" "2" :: [FAQ.mk "C" "3"])).1 =
        [FAQ.mk "A" "1"].length ∧
    countEmbeds
      (runScript failEnv ([FAQ.mk "A" "1"] ++ FAQ.mk "B" "2" :: [FAQ.mk "C" "3"])).1 =
        [FAQ.mk "A" "1"].length + 1) :=
  ⟨by decide, by decide,
   @c3_fail_at_k (List Nat) Unit failEnv [FAQ.mk "A" "1"] [FAQ.mk "C" "3"]
     (FAQ.mk "B" "2") () (by decide) (by decide)⟩

/-- C4: the exit status never depends on the outcome of the create_index
call: replacing that outcome by any other leaves the status unchanged, and
when the ingestion loop finishes without failure the script exits with the
success status whatever the create_index outcome is. -/
theorem c4_index_failure_swallowed {V E : Type} (env : Env V E) (faqs : List FAQ)
    (r : Except E Unit) (hok : (runLoop env faqs).2 = none) :
    (runScript (⟨env.embed, env.insertOne, r⟩ : Env V E) faqs).2 = .success ∧
    (runScript env faqs).2 = .success := by
  have hok2 : (runLoop (⟨env.embed, env.insertOne, r⟩ : Env V E) faqs).2 = none := by
    rw [runLoop_index_indep env r faqs]; exact hok
  rw [runScript_ok _ faqs hok2, runScript_ok env faqs hok]
  exact ⟨rfl, rfl⟩

/-- Witness for C4: a failing create_index outcome still exits successfully. -/
theorem c4_index_failure_swallowed_witness :
    ((runLoop sampleEnv sampleFaqs).2 = none) ∧
    (runScript (⟨sampleEnv.embed, sampleEnv.insertOne, Except.error ()⟩ :
        Env (List Nat) Unit) sampleFaqs).2 = .success ∧
    (runScript sampleEnv sampleFaqs).2 = .success :=
  ⟨by decide,
   c4_index_failure_swallowed sampleEnv sampleFaqs (Except.error ()) (by decide)⟩

/-- C5: a failure during ingestion propagates uncaught: the process exits
with the failure status, the index creation step is never reached (zero
index creation calls in the trace), and nothing is retried: at most one
embedding call and at most one insert call occur per input record. -/
theorem c5_ingestion_error_propagates {V E : Type} (env : Env V E)
    (faqs : List FAQ) {e : PyErr E} (hfail : (runLoop env faqs).2 = some e) :
    (runScript env faqs).2 = .failure ∧
    countIndexCalls (runScript env faqs).1 = 0 ∧
    countEmbeds (runScript env faqs).1 ≤ faqs.length ∧
    countInserts (runScript env faqs).1 ≤ faqs.length := by
  have hsc := runScript_err env faqs hfail
  rw [hsc]
  exact ⟨rfl, runLoop_countIndexCalls env faqs,
    runLoop_countEmbeds_le env faqs, runLoop_countInserts_le env faqs⟩

/-- Witness for C5: an embedding failure on the second of two records. -/
theorem c5_ingestion_error_propagates_witness :
    ((runLoop failEnv sampleFaqs).2 = some (.embedErr ())) ∧
    ((runScript failEnv sampleFaqs).2 = .failure ∧
      countIndexCalls (runScript failEnv sampleFaqs).1 = 0 ∧
      countEmbeds (runScript failEnv sampleFaqs).1 ≤ sampleFaqs.length ∧
      countInserts (runScript failEnv sampleFaqs).1 ≤ sampleFaqs.length) :=
  ⟨by decide,
   @c5_ingestion_error_propagates (List Nat) Unit failEnv sampleFaqs
     (PyErr.embedErr ()) (by decide)⟩

theorem insertedDocs_bind_ok {V E : Type} (env : Env V E) (faqs : List FAQ)
    (h : ∀ f ∈ faqs, faqOk env f) :
    (insertedDocs (faqs.flatMap fun f => (processFAQ env f).1)).map
        (fun d => (d.question, d.answer)) =
      faqs.map fun f => (f.question, f.answer) := by
  induction faqs with
  | nil => rfl
  | cons f rest ih =>
    rcases faqOk_shape env f (h f (by simp)) with ⟨resp, v, rid, _, _, _, hp⟩
    rw [List.flatMap_cons, insertedDocs_append, List.map_append, hp,
      ih fun g hg => h g (by simp [hg])]
    simp [insertedDocs]

/-- C6: records are processed strictly in list order: when every record
succeeds, the loop trace is the concatenation, in input order, of
per-record blocks, each consisting of the embedding call immediately
followed by the insert call for that record, so the sequence of inserted
documents matches the input list order. -/
theorem c6_sequential_order {V E : Type} (env : Env V E) (faqs : List FAQ)
    (hok : ∀ f ∈ faqs, faqOk env f) :
    (runLoop env faqs).1 = (faqs.flatMap fun f => (processFAQ env f).1) ∧
    (∀ f ∈ faqs, ∃ resp v rid,
      (processFAQ env f).1 =
        [.embedCall f.question engineName (.ok resp),
         .insertCall databaseName collectionName ⟨f.question, f.answer, v⟩ (.ok rid)]) ∧
    (insertedDocs (runLoop env faqs).1).map (fun d => (d.question, d.answer)) =
      faqs.map fun f => (f.question, f.answer) := by
  have htr : (runLoop env faqs).1 = faqs.flatMap fun f => (processFAQ env f).1 := by
    rw [runLoop_all_ok env faqs hok]
  refine ⟨htr, ?_, ?_⟩
  · intro f hf
    rcases faqOk_shape env f (hok f hf) with ⟨resp, v, rid, _, _, _, hp⟩
    exact ⟨resp, v, rid, by rw [hp]⟩
  · rw [htr]
    exact insertedDocs_bind_ok env faqs hok

/-- Witness for C6 at a concrete oracle and a concrete two-record input. -/
theorem c6_sequential_order_witness :
    (∀ f ∈ sampleFaqs, faqOk sampleEnv f) ∧
    ((runLoop sampleEnv sampleFaqs).1 =
        (sampleFaqs.flatMap fun f => (processFAQ sampleEnv f).1) ∧
      (∀ f ∈ sampleFaqs, ∃ resp v rid,
        (processFAQ sampleEnv f).1 =
          [.embedCall f.question engineName (.ok resp),
           .insertCall databaseName collectionName
             ⟨f.question, f.answer, v⟩ (.ok rid)]) ∧
      (insertedDocs (runLoop sampleEnv sampleFaqs).1).map
          (fun d => (d.question, d.answer)) =
        sampleFaqs.map fun f => (f.question, f.answer)) :=
  ⟨by decide, c6_sequential_order sampleEnv sampleFaqs (by decide)⟩

/-- C7: on the empty input list the script makes no embedding call and no
insert call, attempts index creation exactly once, and exits successfully. -/
theorem c7_empty_input {V E : Type} (env : Env V E) :
    runScript env [] =
      ([.indexCall databaseName collectionName indexFieldName indexTypeName
          env.createIndexResult], .success) ∧
    countEmbeds (runScript env []).1 = 0 ∧
    countInserts (runScript env []).1 = 0 ∧
    countIndexCalls (runScript env []).1 = 1 := by
  exact ⟨rfl, rfl, rfl, rfl⟩

/-- C8: every store operation in any run targets the fixed database name
knowledge_base and the fixed collection name faqs; both are constants of
the script, independent of the oracle and of the input records. -/
theorem c8_store_ops_fixed_target {V E : Type} (env : Env V E) (faqs : List FAQ)
    {ev : Event V E} (hmem : ev ∈ (runScript env faqs).1) :
    (∀ db co d res, ev = .insertCall db co d res →
      db = "knowledge_base" ∧ co = "faqs") ∧
    (∀ db co fld ty res, ev = .indexCall db co fld ty res →
      db = "knowledge_base" ∧ co = "faqs") := by
  constructor
  · intro db co d res hev
    subst hev
    rcases mem_runScript_fst env faqs hmem with h | h
    · rcases mem_runLoop_fst env faqs h with ⟨f, _, hevp⟩
      rcases insert_mem_processFAQ env f hevp with ⟨hdb, hco, _⟩
      exact ⟨hdb, hco⟩
    · simp at h
  · intro db co fld ty res hev
    subst hev
    rcases mem_runScript_fst env faqs hmem with h | h
    · rcases mem_runLoop_fst env faqs h with ⟨f, _, hevp⟩
      have := processFAQ_no_index env f hevp
      simp [isIndexEvent] at this
    · injection h with h1 h2 h3 h4 h5
      exact ⟨h1, h2⟩

/-- Witness for C8 at the index creation event of a run on empty input. -/
theorem c8_store_ops_fixed_target_witness :
    (Event.indexCall "knowledge_base" "faqs" "embedding" "2dsphere"
        (Except.ok ()) ∈ (runScript sampleEnv []).1) ∧
    ((∀ db co d res,
      (Event.indexCall "knowledge_base" "faqs" "embedding" "2dsphere"
          (Except.ok ()) : Event (List Nat) Unit) = .insertCall db co d res →
        db = "knowledge_base" ∧ co = "faqs") ∧
    (∀ db co fld ty res,
      (Event.indexCall "knowledge_base" "faqs" "embedding" "2dsphere"
          (Except.ok ()) : Event (List Nat) Unit) = .indexCall db co fld ty res →
        db = "knowledge_base" ∧ co = "faqs")) :=
  ⟨by decide,
   @c8_store_ops_fixed_target (List Nat) Unit sampleEnv []
     (Event.indexCall "knowledge_base" "faqs" "embedding" "2dsphere"
       (Except.ok ())) (by decide)⟩

/-- C9: configuration loading reads exactly the three environment variables
MONGODB_URI, AZURE_API_KEY and AZURE_ENDPOINT_URL and applies no validation
of presence or format: for every environment, including one where all three
values are absent, it yields exactly the raw reads and cannot fail; with
the spec-modelled lazy store client, an absent connection string surfaces
as a connection-kind error only at the first downstream store operation. -/
theorem c9_config_no_validation (g : String → Option String) :
    loadConfig g = ⟨g "MONGODB_URI", g "AZURE_API_KEY", g "AZURE_ENDPOINT_URL"⟩ ∧
    loadConfig (fun _ => none) = ⟨none, none, none⟩ ∧
    mongoClient ((loadConfig (fun _ => none)).mongodb_uri) = ⟨none⟩ ∧
    firstStoreOp (mongoClient ((loadConfig (fun _ => none)).mongodb_uri)) =
      .error .connectionError :=
  ⟨rfl, rfl, rfl, rfl⟩

/-- C10: the extraction of the vector from the response is unguarded: an
empty data list raises an IndexError and a missing embedding key raises a
KeyError, either of which aborts the iteration and, uncaught, the whole
run; under the precondition that the response holds at least one item
carrying an embedding field, the extraction returns that vector unchanged. -/
theorem c10_extraction_unguarded {V E : Type} (env : Env V E) (faq : FAQ)
    (resp : EmbResponse V) (hr : env.embed faq.question = .ok resp) :
    (resp.data = [] →
      extractEmbedding resp = .error .indexError ∧
      (processFAQ env faq).2 = some (.extractErr .indexError)) ∧
    (∀ item rest, resp.data = item :: rest → item.embedding = none →
      extractEmbedding resp = .error .keyError ∧
      (processFAQ env faq).2 = some (.extractErr .keyError)) ∧
    (∀ item rest v, resp.data = item :: rest → item.embedding = some v →
      extractEmbedding resp = .ok v) ∧
    (∀ x, extractEmbedding resp = .error x →
      ∀ pre post, (∀ g ∈ pre, faqOk env g) →
        (runScript env (pre ++ faq :: post)).2 = .failure) := by
  refine ⟨?_, ?_, ?_, ?_⟩
  · intro hd
    have hx : extractEmbedding resp = .error .indexError := by
      simp [extractEmbedding, hd]
    exact ⟨hx, by simp [processFAQ, hr, hx]⟩
  · intro item rest hd hnone
    have hx : extractEmbedding resp = .error .keyError := by
      simp [extractEmbedding, hd, hnone]
    exact ⟨hx, by simp [processFAQ, hr, hx]⟩
  · intro item rest v hd hsome
    simp [extractEmbedding, hd, hsome]
  · intro x hx pre post hpre
    have hsnd : (processFAQ env faq).2 = some (.extractErr x) := by
      simp [processFAQ, hr, hx]
    have hloop := runLoop_split env pre post faq hpre hsnd
    rw [runScript_err env (pre ++ faq :: post) (by rw [hloop])]

/-- Witness for C10 at an oracle whose responses have an empty data list. -/
theorem c10_extraction_unguarded_witness :
    (emptyDataEnv.embed (FAQ.mk "A" "1").question =
      .ok (⟨[]⟩ : EmbResponse (List Nat))) ∧
    (((⟨[]⟩ : EmbResponse (List Nat)).data = [] →
      extractEmbedding (⟨[]⟩ : EmbResponse (List Nat)) = .error .indexError ∧
      (processFAQ emptyDataEnv (FAQ.mk "A" "1")).2 =
        some (.extractErr .indexError)) ∧
    (∀ item rest, (⟨[]⟩ : EmbResponse (List Nat)).data = item :: rest →
      item.embedding = none →
      extractEmbedding (⟨[]⟩ : EmbResponse (List Nat)) = .error .keyError ∧
      (processFAQ emptyDataEnv (FAQ.mk "A" "1")).2 =
        some (.extractErr .keyError)) ∧
    (∀ item rest v, (⟨[]⟩ : EmbResponse (List Nat)).data = item :: rest →
      item.embedding = some v →
      extractEmbedding (⟨[]⟩ : EmbResponse (List Nat)) = .ok v) ∧
    (∀ x, extractEmbedding (⟨[]⟩ : EmbResponse (List Nat)) = .error x →
      ∀ pre post, (∀ g ∈ pre, faqOk emptyDataEnv g) →
        (runScript emptyDataEnv (pre ++ FAQ.mk "A" "1" :: post)).2 = .failure)) :=
  ⟨by decide,
   c10_extraction_unguarded emptyDataEnv (FAQ.mk "A" "1") ⟨[]⟩ (by decide)⟩
